import Mathlib

/-!
Shallow embedding of the instruction-execution core of a Game Boy class
CPU emulator (Go source: `registers.go`, `mmu.go`, `ins.go`, the CPU
step/decode/stack file and the dispatch generator).

Machine bytes and words are modelled as `Nat` with explicit `% 256` /
`% 65536` at every point where the Go code performs a `uint8`/`uint16`
conversion or where Go's fixed-width arithmetic wraps.  Byte arrays are
modelled as total functions `Nat → Nat`.  Go `panic` calls are modelled
as `Except.error` results carrying the panic message.
-/

/-- Pointwise update of a byte-array-as-function (Go `arr[a] = v`). -/
def updateFn (f : Nat → Nat) (a v : Nat) : Nat → Nat :=
  fun x => if x = a then v else f x

/-- Upper-case hex digit of a value `n < 16` (for `fmt.Sprintf "%X"`). -/
def hexDigit (n : Nat) : Char :=
  if n < 10 then Char.ofNat (48 + n) else Char.ofNat (55 + n)

/-- Go `fmt.Sprintf "0x%04X"` for a 16-bit value. -/
def hex4 (n : Nat) : String :=
  String.mk ['0', 'x', hexDigit (n / 4096 % 16), hexDigit (n / 256 % 16),
    hexDigit (n / 16 % 16), hexDigit (n % 16)]

/-- Go `int8(b)` reinterpretation of a byte as a signed value. -/
def int8OfByte (b : Nat) : Int :=
  if b < 128 then (b : Int) else (b : Int) - 256

/- ### Register file (`registers.go`) -/

/-- Z - bit 7 (`ZeroFlag uint8 = 1 << 7`). -/
def ZeroFlag : Nat := 1 <<< 7

/-- N - bit 6. -/
def SubtractFlag : Nat := 1 <<< 6

/-- H - bit 5. -/
def HalfCarryFlag : Nat := 1 <<< 5

/-- C - bit 4. -/
def CarryFlag : Nat := 1 <<< 4

/-- The register file: eight 8-bit registers plus the two 16-bit
pointers.  Each field holds the register's byte (resp. word) value. -/
structure Registers where
  A : Nat
  F : Nat
  B : Nat
  C : Nat
  D : Nat
  E : Nat
  H : Nat
  L : Nat
  PC : Nat
  SP : Nat

def Registers.getA (r : Registers) : Nat := r.A

def Registers.setA (r : Registers) (value : Nat) : Registers := { r with A := value }

def Registers.getB (r : Registers) : Nat := r.B

def Registers.setB (r : Registers) (value : Nat) : Registers := { r with B := value }

def Registers.getC (r : Registers) : Nat := r.C

def Registers.setC (r : Registers) (value : Nat) : Registers := { r with C := value }

/-- Modelled from the spec: the individual getters/setters for D, E, H
(setter), L are referenced by the instruction routines via the
register-name lookup but are absent from the surveyed source; per §4.1
of the spec they are the evident field accessors. -/
def Registers.getD (r : Registers) : Nat := r.D

def Registers.setD (r : Registers) (value : Nat) : Registers := { r with D := value }

def Registers.getE (r : Registers) : Nat := r.E

def Registers.setE (r : Registers) (value : Nat) : Registers := { r with E := value }

def Registers.getH (r : Registers) : Nat := r.H

def Registers.setH (r : Registers) (value : Nat) : Registers := { r with H := value }

def Registers.getL (r : Registers) : Nat := r.L

def Registers.setL (r : Registers) (value : Nat) : Registers := { r with L := value }

/-- `getAF`: `(uint16(r.A) << 8) | uint16(r.F)`. -/
def Registers.getAF (r : Registers) : Nat := (r.A <<< 8) ||| r.F

/-- `setAF`: `r.A = uint8(value >> 8); r.F = uint8(value & 0x00F0)`. -/
def Registers.setAF (r : Registers) (value : Nat) : Registers :=
  { r with A := (value >>> 8) % 256, F := value &&& 0x00F0 }

def Registers.getBC (r : Registers) : Nat := (r.B <<< 8) ||| r.C

def Registers.setBC (r : Registers) (value : Nat) : Registers :=
  { r with B := (value >>> 8) % 256, C := value % 256 }

def Registers.getDE (r : Registers) : Nat := (r.D <<< 8) ||| r.E

def Registers.setDE (r : Registers) (value : Nat) : Registers :=
  { r with D := (value >>> 8) % 256, E := value % 256 }

def Registers.getHL (r : Registers) : Nat := (r.H <<< 8) ||| r.L

def Registers.setHL (r : Registers) (value : Nat) : Registers :=
  { r with H := (value >>> 8) % 256, L := value % 256 }

def Registers.decHL (r : Registers) : Registers :=
  r.setHL ((r.getHL + 65535) % 65536)

def Registers.getSP (r : Registers) : Nat := r.SP

def Registers.setSP (r : Registers) (value : Nat) : Registers := { r with SP := value }

def Registers.getPC (r : Registers) : Nat := r.PC

def Registers.setPC (r : Registers) (value : Nat) : Registers := { r with PC := value }

/-- `addPC`: `r.PC = uint16(int32(r.PC) + int32(value))`; the `uint16`
conversion truncates, i.e. takes the value modulo 2^16. -/
def Registers.addPC (r : Registers) (value : Int) : Registers :=
  { r with PC := (((r.PC : Int) + value) % 65536).toNat }

/-- `getFlag`: `(r.F & flag) != 0`. -/
def Registers.getFlag (r : Registers) (flag : Nat) : Bool :=
  (r.F &&& flag) != 0

/-- `setFlag`: `r.F |= flag` or `r.F &= ^flag`; on `uint8`, `^flag`
is the 8-bit complement, i.e. `255 ^^^ flag`. -/
def Registers.setFlag (r : Registers) (flag : Nat) (set : Bool) : Registers :=
  if set then { r with F := r.F ||| flag } else { r with F := r.F &&& (255 ^^^ flag) }

/-- `inc8Flags`: Z iff result is zero, N cleared, H iff the original
low nibble was 0xF; the carry flag is not written. -/
def Registers.inc8Flags (r : Registers) (orig res : Nat) : Registers :=
  ((r.setFlag ZeroFlag (res == 0)).setFlag SubtractFlag false).setFlag
    HalfCarryFlag ((orig &&& 0x0F) == 0x0F)

/- ### Addressable unit (`mmu.go`) -/

def bootDisableReg : Nat := 0xFF50

/-- The MMU: 64KB main space, 256B boot overlay, one-shot overlay flag. -/
structure MMU where
  memory : Nat → Nat
  boot : Nat → Nat
  bootEnabled : Bool

/-- `NewMMU`: overlay enabled, boot image copied in; the main space of a
fresh Go `MMU` is zero-initialised. -/
def NewMMU (bootROM : Nat → Nat) : MMU :=
  { memory := fun _ => 0, boot := bootROM, bootEnabled := true }

/-- `ReadByteAt`: overlay serves `0x0000-0x00FF` while enabled; the
out-of-bounds branch (`int(addr) >= len(mmu.memory)`) returns the `0xFF`
sentinel. -/
def MMU.ReadByteAt (m : MMU) (addr : Nat) : Nat :=
  if m.bootEnabled ∧ addr < 0x0100 then m.boot addr
  else if addr ≥ 0x10000 then 0xFF
  else m.memory addr

/-- `ReadWordAt`: little-endian composition of two byte reads; the
second read's address is `addr + 1` in `uint16` arithmetic. -/
def MMU.ReadWordAt (m : MMU) (addr : Nat) : Nat :=
  let lo := m.ReadByteAt addr
  let hi := m.ReadByteAt ((addr + 1) % 65536)
  (hi <<< 8) ||| lo

/-- `WriteByteAt`: a write to `0xFF50` latches the overlay off when bit 0
of the value is set (`value&0x01 != 0`), and in either case still stores
the value; other in-range writes store into main space; the
out-of-bounds branch drops the write. -/
def MMU.WriteByteAt (m : MMU) (addr value : Nat) : MMU :=
  if addr = bootDisableReg then
    if value &&& 0x01 ≠ 0 then
      { m with bootEnabled := false, memory := updateFn m.memory addr value }
    else
      { m with memory := updateFn m.memory addr value }
  else if addr ≥ 0x10000 then m
  else { m with memory := updateFn m.memory addr value }

/-- A whole sequence of writes, first element first. -/
def MMU.writes (m : MMU) : List (Nat × Nat) → MMU
  | [] => m
  | (a, v) :: rest => MMU.writes (m.WriteByteAt a v) rest

/- ### Opcode metadata (`ins.go`) -/

structure Operand where
  Name : String
  Bytes : Nat
  Immediate : Bool
  Increment : Bool
  Decrement : Bool

/-- Opcode-table entry.  The Go struct's `Execute` function field and the
`Flags` hint map are not part of the modelled state: dispatch is applied
explicitly in the theorems, and the hints are never read. -/
structure Instruction where
  Opcode : String
  Mnemonic : String
  Bytes : Nat
  Cycles : List Int
  CbPrefixed : Bool
  Operands : List Operand
  Immediate : Bool

/-- Go `Operand` rendering inside `Instruction.String()`. -/
def Operand.render (op : Operand) : String :=
  let s := op.Name
  let s := if op.Increment then s ++ "++" else s
  let s := if op.Decrement then s ++ "--" else s
  if op.Immediate then s else "(" ++ s ++ ")"

/-- `Instruction.String()`: `UNKNOWN` when the mnemonic is empty. -/
def Instruction.toString (i : Instruction) : String :=
  if i.Mnemonic = "" then "UNKNOWN"
  else if i.Operands.length = 0 then i.Mnemonic
  else i.Mnemonic ++ " " ++ String.intercalate ", " (i.Operands.map Operand.render)

/- ### Execution engine (CPU step / decode / stack) -/

structure CPU where
  Regs : Registers
  Mmu : MMU

/-- `fetchByte`: read at PC, then `PC++` (`uint16` wraparound). -/
def CPU.fetchByte (cpu : CPU) : Nat × CPU :=
  let addr := cpu.Regs.PC
  let val := cpu.Mmu.ReadByteAt addr
  (val, { cpu with Regs := { cpu.Regs with PC := (addr + 1) % 65536 } })

/-- `fetchWord`: read a word at PC, then `PC += 2`. -/
def CPU.fetchWord (cpu : CPU) : Nat × CPU :=
  let addr := cpu.Regs.PC
  let val := cpu.Mmu.ReadWordAt addr
  (val, { cpu with Regs := { cpu.Regs with PC := (addr + 2) % 65536 } })

/-- `decode`: fetch one byte; on `0xCB` fetch a second byte and select
table slot `256 + second`, else select slot `first`.  The selected slot
index (`opcodes[i]` in Go) is returned together with the advanced CPU. -/
def CPU.decode (cpu : CPU) : Nat × CPU :=
  let p := cpu.fetchByte
  let opcode := p.1
  let cpu1 := p.2
  if opcode = 0xCB then
    let q := cpu1.fetchByte
    (256 + q.1, q.2)
  else
    (opcode, cpu1)

/-- `opcodeAddr`: `cpu.Registers.getPC() - uint16(instr.Bytes)` in
`uint16` arithmetic. -/
def CPU.opcodeAddr (cpu : CPU) (instr : Instruction) : Nat :=
  (cpu.Regs.getPC + (65536 - instr.Bytes % 65536)) % 65536

/-- `pushWord`: decrement SP, write high byte, decrement SP, write low
byte, store the final SP. -/
def CPU.pushWord (cpu : CPU) (v : Nat) : CPU :=
  let sp := cpu.Regs.getSP
  let sp1 := (sp + 65535) % 65536
  let mmu1 := cpu.Mmu.WriteByteAt sp1 ((v >>> 8) % 256)
  let sp2 := (sp1 + 65535) % 65536
  let mmu2 := mmu1.WriteByteAt sp2 (v % 256)
  { cpu with Mmu := mmu2, Regs := cpu.Regs.setSP sp2 }

/-- `popWord`: read low byte at SP, increment, read high byte,
increment, store SP, return `hi<<8 | lo`. -/
def CPU.popWord (cpu : CPU) : Nat × CPU :=
  let sp := cpu.Regs.getSP
  let lo := cpu.Mmu.ReadByteAt sp
  let sp1 := (sp + 1) % 65536
  let hi := cpu.Mmu.ReadByteAt sp1
  let sp2 := (sp1 + 1) % 65536
  ((hi <<< 8) ||| lo, { cpu with Regs := cpu.Regs.setSP sp2 })

/- ### Register-name lookup used by the generic routines -/

/-- Modelled from the spec: `getRegisterGetter8` is called by the generic
instruction routines but its body is absent from the surveyed source;
per §4.1 it maps each 8-bit register name to that register's getter and
unknown names to nil. -/
def getRegisterGetter8 (name : String) : Option (Registers → Nat) :=
  if name = "A" then some Registers.getA
  else if name = "B" then some Registers.getB
  else if name = "C" then some Registers.getC
  else if name = "D" then some Registers.getD
  else if name = "E" then some Registers.getE
  else if name = "H" then some Registers.getH
  else if name = "L" then some Registers.getL
  else none

/-- Modelled from the spec: setter counterpart of `getRegisterGetter8`,
likewise absent from the surveyed source. -/
def getRegisterSetter8 (name : String) : Option (Registers → Nat → Registers) :=
  if name = "A" then some Registers.setA
  else if name = "B" then some Registers.setB
  else if name = "C" then some Registers.setC
  else if name = "D" then some Registers.setD
  else if name = "E" then some Registers.setE
  else if name = "H" then some Registers.setH
  else if name = "L" then some Registers.setL
  else none

/-- The 8-bit registers reachable through the name lookup, for stating
theorems uniformly. -/
inductive Reg8 where
  | A | B | C | D | E | H | L

def reg8Name : Reg8 → String
  | .A => "A"
  | .B => "B"
  | .C => "C"
  | .D => "D"
  | .E => "E"
  | .H => "H"
  | .L => "L"

def reg8Get : Reg8 → Registers → Nat
  | .A => Registers.getA
  | .B => Registers.getB
  | .C => Registers.getC
  | .D => Registers.getD
  | .E => Registers.getE
  | .H => Registers.getH
  | .L => Registers.getL

/-- The pushable/poppable 16-bit pairs. -/
inductive Pair16 where
  | BC | DE | HL | AF
deriving DecidableEq

def pair16Name : Pair16 → String
  | .BC => "BC"
  | .DE => "DE"
  | .HL => "HL"
  | .AF => "AF"

def pair16Get : Pair16 → Registers → Nat
  | .BC => Registers.getBC
  | .DE => Registers.getDE
  | .HL => Registers.getHL
  | .AF => Registers.getAF

/- ### Instruction routines -/

/-- The diagnostic built by `OpUnimplemented`
(`fmt.Sprintf "Unimplemented instruction %q called at PC: 0x%04X" ...`). -/
def unimplMsg (instr : Instruction) (pc : Nat) : String :=
  "Unimplemented instruction \"" ++ instr.toString ++ "\" called at PC: " ++ hex4 pc

/-- `OpUnimplemented`: panics with the instruction's rendering and
`cpu.Registers.PC - 1` (`uint16` arithmetic). -/
def OpUnimplemented (cpu : CPU) (instr : Instruction) : Except String (CPU × Int) :=
  Except.error (unimplMsg instr ((cpu.Regs.PC + 65535) % 65536))

/-- `OpJrCondImm8` (`registers.go`): fetches the offset byte, then tests
`!getFlag(ZeroFlag)` — the zero-clear condition — regardless of the
instruction's condition operand; jump taken returns `Cycles[0]`, not
taken returns `Cycles[1]`. -/
def OpJrCondImm8 (cpu : CPU) (instr : Instruction) : CPU × Int :=
  let p := cpu.fetchByte
  let offset := p.1
  let cpu1 := p.2
  if !(cpu1.Regs.getFlag ZeroFlag) then
    ({ cpu1 with Regs := cpu1.Regs.addPC (int8OfByte offset) }, instr.Cycles.getD 0 0)
  else
    (cpu1, instr.Cycles.getD 1 0)

/-- `OpJrNZE8` (`ins.go`): identical body to `OpJrCondImm8`. -/
def OpJrNZE8 (cpu : CPU) (instr : Instruction) : CPU × Int :=
  let p := cpu.fetchByte
  let offset := p.1
  let cpu1 := p.2
  if !(cpu1.Regs.getFlag ZeroFlag) then
    ({ cpu1 with Regs := cpu1.Regs.addPC (int8OfByte offset) }, instr.Cycles.getD 0 0)
  else
    (cpu1, instr.Cycles.getD 1 0)

/-- `OpIncR8`: `res := orig + 1` in `uint8` arithmetic; Z iff res is 0,
N cleared, H iff `(orig&0x0F)+1 > 0x0F`; the carry flag is not written. -/
def OpIncR8 (cpu : CPU) (instr : Instruction) : Except String (CPU × Int) :=
  match instr.Operands with
  | [] => Except.error "OpIncR8 expects 1 operand, got 0"
  | op :: _ =>
    match getRegisterGetter8 op.Name, getRegisterSetter8 op.Name with
    | some getter, some setter =>
      let orig := getter cpu.Regs
      let res := (orig + 1) % 256
      let r1 := setter cpu.Regs res
      let r2 := r1.setFlag ZeroFlag (res == 0)
      let r3 := r2.setFlag SubtractFlag false
      let r4 := r3.setFlag HalfCarryFlag (decide ((orig &&& 0x0F) + 1 > 0x0F))
      Except.ok ({ cpu with Regs := r4 }, instr.Cycles.getD 0 0)
    | _, _ => Except.error ("OpIncR8: Unexpected register " ++ op.Name)

/-- `OpPushR16`: reads the named pair and pushes it. -/
def OpPushR16 (cpu : CPU) (instr : Instruction) : Except String (CPU × Int) :=
  match instr.Operands with
  | [] => Except.error "OpPushR16 expects 1 operand, got 0"
  | op :: _ =>
    if op.Name = "BC" then Except.ok (cpu.pushWord cpu.Regs.getBC, instr.Cycles.getD 0 0)
    else if op.Name = "DE" then Except.ok (cpu.pushWord cpu.Regs.getDE, instr.Cycles.getD 0 0)
    else if op.Name = "HL" then Except.ok (cpu.pushWord cpu.Regs.getHL, instr.Cycles.getD 0 0)
    else if op.Name = "AF" then Except.ok (cpu.pushWord cpu.Regs.getAF, instr.Cycles.getD 0 0)
    else Except.error ("OpPushR16: Unexpected source register " ++ op.Name)

/-- `OpPopR16`: pops a word into the named pair; `setAF` masks the low
nibble of F. -/
def OpPopR16 (cpu : CPU) (instr : Instruction) : Except String (CPU × Int) :=
  match instr.Operands with
  | [] => Except.error "OpPopR16 expects 1 operand, got 0"
  | op :: _ =>
    let p := cpu.popWord
    let value := p.1
    let cpu1 := p.2
    if op.Name = "BC" then
      Except.ok ({ cpu1 with Regs := cpu1.Regs.setBC value }, instr.Cycles.getD 0 0)
    else if op.Name = "DE" then
      Except.ok ({ cpu1 with Regs := cpu1.Regs.setDE value }, instr.Cycles.getD 0 0)
    else if op.Name = "HL" then
      Except.ok ({ cpu1 with Regs := cpu1.Regs.setHL value }, instr.Cycles.getD 0 0)
    else if op.Name = "AF" then
      Except.ok ({ cpu1 with Regs := cpu1.Regs.setAF value }, instr.Cycles.getD 0 0)
    else Except.error ("OpPopR16: Unexpected target register " ++ op.Name)

/- ### Concrete fixtures used by witnesses and counterexamples -/

/-- A boot-overlay image whose every byte is `0xAA`. -/
def bootAA : Nat → Nat := fun _ => 0xAA

/-- All-zero register file. -/
def regs0 : Registers := ⟨0, 0, 0, 0, 0, 0, 0, 0, 0, 0⟩

/-- An MMU whose overlay has been retired: main space zero, boot image
`bootAA`, overlay flag off. -/
def mmuOff : MMU := { memory := fun _ => 0, boot := bootAA, bootEnabled := false }

/-- The `PUSH BC` table entry (slot `0xC5` of the opcode dataset). -/
def instrPushBC : Instruction :=
  ⟨"0xC5", "PUSH", 1, [16], false, [⟨"BC", 0, true, false, false⟩], true⟩

/-- The `POP BC` table entry (slot `0xC1`). -/
def instrPopBC : Instruction :=
  ⟨"0xC1", "POP", 1, [12], false, [⟨"BC", 0, true, false, false⟩], true⟩

/-- A machine about to push `BC = 0x1234` with a comfortably high stack
pointer (overlay irrelevant). -/
def cpuPushFix : CPU :=
  { Regs := { regs0 with B := 0x12, C := 0x34, SP := 0xFFFE }, Mmu := NewMMU bootAA }

/-- A machine about to push `BC = 0x1234` with `SP = 0x0100`, so that
both stack bytes land in the overlay-shadowed range of a fresh MMU. -/
def cpuPushCex : CPU :=
  { Regs := { regs0 with B := 0x12, C := 0x34, SP := 0x0100 }, Mmu := NewMMU bootAA }

/-- A machine (overlay off) whose zero flag is set, positioned just after
the `JR Z` opcode byte: the offset byte `0x05` sits at `PC = 0x0101`. -/
def cpuJrZ : CPU :=
  { Regs := { regs0 with F := 0x80, PC := 0x0101 },
    Mmu := { mmuOff with memory := updateFn (fun _ => 0) 0x0101 0x05 } }

/-- A machine (overlay off) whose next two bytes are the extended prefix
`0xCB` followed by `0xFF`, at `PC = 0x0100`. -/
def cpuCB255 : CPU :=
  { Regs := { regs0 with PC := 0x0100 },
    Mmu := { mmuOff with
      memory := updateFn (updateFn (fun _ => 0) 0x0100 0xCB) 0x0101 0xFF } }

/-- Like `cpuCB255` but with second byte `0xFE` (a different extended
opcode). -/
def cpuCB254 : CPU :=
  { Regs := { regs0 with PC := 0x0100 },
    Mmu := { mmuOff with
      memory := updateFn (updateFn (fun _ => 0) 0x0100 0xCB) 0x0101 0xFE } }

/-- The `JR Z, e8` table entry (slot `0x28`): byte-length 2, declared
cycle costs `[12, 8]`, condition operand `Z` (zero-set). -/
def instrJrZ : Instruction :=
  ⟨"0x28", "JR", 2, [12, 8], false,
    [⟨"Z", 0, true, false, false⟩, ⟨"e8", 1, true, false, false⟩], true⟩

/-- The `INC A` table entry (slot `0x3C`). -/
def instrIncA : Instruction :=
  ⟨"0x3C", "INC", 1, [4], false, [⟨"A", 0, true, false, false⟩], true⟩

/-- A zero-valued table entry, as held by every unimplemented slot (the
slot was never populated from the dataset). -/
def instrUnimpl : Instruction := ⟨"", "", 0, [], false, [], false⟩

/- ## Helper lemmas -/

lemma shiftLeft8_or (a b : Nat) (hb : b < 256) : (a <<< 8) ||| b = 256 * a + b := by
  have hb2 : b < 2 ^ 8 := by simpa using hb
  have h := Nat.mul_add_lt_is_or hb2 a
  rw [Nat.shiftLeft_eq]
  norm_num at h
  rw [Nat.mul_comm a 256]
  exact h.symm

lemma hl_recompose (v : Nat) (h : v < 65536) :
    (((v >>> 8) % 256) <<< 8) ||| (v % 256) = v := by
  rw [shiftLeft8_or _ _ (Nat.mod_lt _ (by norm_num)), Nat.shiftRight_eq_div_pow]
  norm_num
  omega

lemma and_shiftLeft_mask (x m k : Nat) : x &&& (m <<< k) = ((x >>> k) &&& m) <<< k := by
  apply Nat.eq_of_testBit_eq
  intro i
  simp only [Nat.testBit_land, Nat.testBit_shiftLeft, Nat.testBit_shiftRight]
  by_cases hk : k ≤ i
  · simp [hk, Nat.add_sub_cancel' hk]
  · simp [hk]

lemma and_240 (v : Nat) : v &&& 240 = v / 16 % 16 * 16 := by
  have h240 : (240 : Nat) = 15 <<< 4 := by decide
  rw [h240, and_shiftLeft_mask, Nat.shiftRight_eq_div_pow]
  have h15 : (15 : Nat) = 2 ^ 4 - 1 := by decide
  rw [h15, Nat.and_pow_two_sub_one_eq_mod, Nat.shiftLeft_eq]

lemma and_fff0 (v : Nat) : v &&& 65520 = v / 16 % 4096 * 16 := by
  have hm : (65520 : Nat) = 4095 <<< 4 := by decide
  rw [hm, and_shiftLeft_mask, Nat.shiftRight_eq_div_pow]
  have h4095 : (4095 : Nat) = 2 ^ 12 - 1 := by decide
  rw [h4095, Nat.and_pow_two_sub_one_eq_mod, Nat.shiftLeft_eq]

lemma af_recompose (v : Nat) (h : v < 65536) :
    (((v >>> 8) % 256) <<< 8) ||| (v &&& 240) = v &&& 65520 := by
  have hb : v &&& 240 < 256 := Nat.lt_of_le_of_lt Nat.and_le_right (by norm_num)
  rw [shiftLeft8_or _ _ hb, Nat.shiftRight_eq_div_pow, and_240, and_fff0]
  omega

lemma getFlag_pow (r : Registers) (i : Nat) : r.getFlag (2 ^ i) = r.F.testBit i := by
  unfold Registers.getFlag
  rw [Nat.and_two_pow]
  cases h : r.F.testBit i
  · simp
  · simp [Nat.pos_iff_ne_zero]

lemma setFlag_F_testBit (r : Registers) (f : Nat) (b : Bool) (j : Nat) (hj : j < 8) :
    (r.setFlag f b).F.testBit j = (if f.testBit j then b else r.F.testBit j) := by
  unfold Registers.setFlag
  have h255 : Nat.testBit 255 j = true := by
    interval_cases j <;> decide
  cases b <;> by_cases hf : f.testBit j <;>
    simp [Nat.testBit_lor, Nat.testBit_land, Nat.testBit_xor, hf, h255]

lemma WriteByteAt_memory (m : MMU) (a v : Nat) (ha : a < 65536) :
    (m.WriteByteAt a v).memory = updateFn m.memory a v := by
  unfold MMU.WriteByteAt
  by_cases h1 : a = bootDisableReg
  · rw [if_pos h1]
    split <;> rfl
  · rw [if_neg h1, if_neg (by omega : ¬ a ≥ 65536)]

lemma WriteByteAt_boot (m : MMU) (a v : Nat) : (m.WriteByteAt a v).boot = m.boot := by
  unfold MMU.WriteByteAt
  by_cases h1 : a = bootDisableReg
  · rw [if_pos h1]
    split <;> rfl
  · by_cases h3 : a ≥ 65536
    · rw [if_neg h1, if_pos h3]
    · rw [if_neg h1, if_neg h3]

lemma WriteByteAt_bootEnabled (m : MMU) (a v : Nat) :
    (m.WriteByteAt a v).bootEnabled =
      if a = bootDisableReg ∧ v &&& 1 ≠ 0 then false else m.bootEnabled := by
  unfold MMU.WriteByteAt
  by_cases h1 : a = bootDisableReg
  · rw [if_pos h1]
    by_cases h2 : v &&& 1 ≠ 0
    · rw [if_pos h2, if_pos ⟨h1, h2⟩]
    · rw [if_neg h2, if_neg (fun hx => h2 hx.2)]
  · by_cases h3 : a ≥ 65536
    · rw [if_neg h1, if_pos h3, if_neg (fun hx => h1 hx.1)]
    · rw [if_neg h1, if_neg h3, if_neg (fun hx => h1 hx.1)]

lemma ReadByteAt_memory (m : MMU) (a : Nat) (ha : a < 65536)
    (h : m.bootEnabled = false ∨ 256 ≤ a) : m.ReadByteAt a = m.memory a := by
  unfold MMU.ReadByteAt
  have hc : ¬ (m.bootEnabled = true ∧ a < 256) := by
    rcases h with h | h
    · simp [h]
    · exact fun hx => absurd hx.2 (by omega)
  have h2 : ¬ a ≥ 65536 := by omega
  simp only [ge_iff_le]
  rw [if_neg (by simpa using hc), if_neg (by omega)]

lemma writes_bootEnabled_mono (l : List (Nat × Nat)) :
    ∀ m : MMU, m.bootEnabled = false → (m.writes l).bootEnabled = false := by
  induction l with
  | nil => intro m h; exact h
  | cons p rest ih =>
    intro m h
    cases p with
    | mk a v =>
      apply ih
      rw [WriteByteAt_bootEnabled]
      split <;> simp [h]

/-- C2: the overlay-active flag is true at construction; while it is
true every read below `0x0100` is served from the overlay; a write to
`0xFF50` whose value has bit 0 set clears the flag; once false, the flag
stays false under every further write sequence and low reads are served
from main space; and the value written to `0xFF50` is always stored in
main space and readable back. -/
theorem overlay_one_way_latch (m : MMU) (b : Nat → Nat) :
    ((NewMMU b).bootEnabled = true)
    ∧ (m.bootEnabled = true → ∀ a, a < 256 → m.ReadByteAt a = m.boot a)
    ∧ (∀ v, v &&& 1 ≠ 0 → (m.WriteByteAt 0xFF50 v).bootEnabled = false)
    ∧ (m.bootEnabled = false → ∀ a, a < 256 → m.ReadByteAt a = m.memory a)
    ∧ (m.bootEnabled = false → ∀ l, (m.writes l).bootEnabled = false)
    ∧ (∀ v, (m.WriteByteAt 0xFF50 v).memory 0xFF50 = v)
    ∧ (∀ v, (m.WriteByteAt 0xFF50 v).ReadByteAt 0xFF50 = v) := by
  refine ⟨rfl, ?_, ?_, ?_, ?_, ?_, ?_⟩
  · intro h a ha
    unfold MMU.ReadByteAt
    rw [if_pos ⟨h, by omega⟩]
  · intro v hv
    rw [WriteByteAt_bootEnabled, if_pos ⟨rfl, hv⟩]
  · intro h a ha
    exact ReadByteAt_memory m a (by omega) (Or.inl h)
  · intro h l
    exact writes_bootEnabled_mono l m h
  · intro v
    rw [WriteByteAt_memory _ _ _ (by norm_num)]
    simp [updateFn]
  · intro v
    rw [ReadByteAt_memory _ _ (by norm_num) (Or.inr (by norm_num)),
      WriteByteAt_memory _ _ _ (by norm_num)]
    simp [updateFn]

/-- C2 witness: concrete instantiation at a fresh MMU and the qualifying
write value `0x01`. -/
theorem overlay_one_way_latch_w :
    ((1 : Nat) &&& 1 ≠ 0 ∧ ((NewMMU bootAA).WriteByteAt 0xFF50 1).bootEnabled = false)
    ∧ ((NewMMU bootAA).bootEnabled = true ∧ (0 : Nat) < 256
        ∧ (NewMMU bootAA).ReadByteAt 0 = (NewMMU bootAA).boot 0) :=
  ⟨⟨by decide, (overlay_one_way_latch (NewMMU bootAA) bootAA).2.2.1 1 (by decide)⟩,
    rfl, by decide, (overlay_one_way_latch (NewMMU bootAA) bootAA).2.1 rfl 0 (by decide)⟩

/-- C8: `ReadWordAt` is the little-endian composition of two byte reads,
the second at `addr + 1` reduced modulo 2^16, with no special casing at
`0xFFFF` (there the high byte is read from address 0). -/
theorem readWord_little_endian (m : MMU) (addr : Nat) :
    (m.ReadWordAt addr = (m.ReadByteAt ((addr + 1) % 65536) <<< 8) ||| m.ReadByteAt addr)
    ∧ m.ReadWordAt 0xFFFF = (m.ReadByteAt 0 <<< 8) ||| m.ReadByteAt 0xFFFF :=
  ⟨rfl, rfl⟩

/-- C9: while the overlay is active, a write below `0x0100` stores into
main space but an immediately following read returns the overlay byte;
read-after-write equality fails whenever the written value differs from
the overlay byte; the stored value becomes readable once the overlay is
disabled by a qualifying `0xFF50` write. -/
theorem overlay_shadows_low_writes (m : MMU) (a v : Nat)
    (hb : m.bootEnabled = true) (ha : a < 256) :
    ((m.WriteByteAt a v).memory a = v)
    ∧ ((m.WriteByteAt a v).bootEnabled = true)
    ∧ ((m.WriteByteAt a v).ReadByteAt a = m.boot a)
    ∧ (v ≠ m.boot a → (m.WriteByteAt a v).ReadByteAt a ≠ v)
    ∧ (((m.WriteByteAt a v).WriteByteAt 0xFF50 1).ReadByteAt a = v) := by
  have hne : a ≠ bootDisableReg := by unfold bootDisableReg; omega
  have hmem : (m.WriteByteAt a v).memory a = v := by
    rw [WriteByteAt_memory _ _ _ (by omega)]; simp [updateFn]
  have hbe : (m.WriteByteAt a v).bootEnabled = true := by
    rw [WriteByteAt_bootEnabled, if_neg (fun hx => hne hx.1)]; exact hb
  have hread : (m.WriteByteAt a v).ReadByteAt a = m.boot a := by
    unfold MMU.ReadByteAt
    rw [if_pos ⟨hbe, by omega⟩, WriteByteAt_boot]
  refine ⟨hmem, hbe, hread, ?_, ?_⟩
  · intro hv
    rw [hread]
    exact fun hEq => hv hEq.symm
  · have hbe2 : ((m.WriteByteAt a v).WriteByteAt 0xFF50 1).bootEnabled = false := by
      rw [WriteByteAt_bootEnabled, if_pos ⟨rfl, by decide⟩]
    rw [ReadByteAt_memory _ _ (by omega) (Or.inl hbe2),
      WriteByteAt_memory _ _ _ (by norm_num)]
    simp only [updateFn]
    rw [if_neg (by omega : ¬ a = 0xFF50)]
    exact hmem

/-- C9 witness: write `0x55` to address 0 of a fresh MMU; the read back
still returns the overlay byte `0xAA`. -/
theorem overlay_shadows_low_writes_w :
    ((NewMMU bootAA).bootEnabled = true ∧ (0 : Nat) < 256)
    ∧ ((NewMMU bootAA).WriteByteAt 0 0x55).ReadByteAt 0 = (NewMMU bootAA).boot 0 :=
  ⟨⟨rfl, by decide⟩, (overlay_shadows_low_writes (NewMMU bootAA) 0 0x55 rfl (by decide)).2.2.1⟩

/-- C10: for every in-range (16-bit) address the out-of-bounds branches
are unreachable: a read is served from the overlay or the main space
(never the `0xFF` sentinel), and a write is never dropped. -/
theorem mmu_access_in_bounds (m : MMU) (addr v : Nat) (h : addr < 65536) :
    (m.ReadByteAt addr = if m.bootEnabled ∧ addr < 256 then m.boot addr else m.memory addr)
    ∧ ((m.WriteByteAt addr v).memory addr = v) := by
  constructor
  · unfold MMU.ReadByteAt
    by_cases hc : m.bootEnabled = true ∧ addr < 256
    · rw [if_pos (by simpa using hc), if_pos (by simpa using hc)]
    · rw [if_neg (by simpa using hc), if_neg (by omega : ¬ addr ≥ 65536),
        if_neg (by simpa using hc)]
  · rw [WriteByteAt_memory _ _ _ h]
    simp [updateFn]

/-- C10 witness: concrete in-range access at the top address `0xFFFF`. -/
theorem mmu_access_in_bounds_w :
    (0xFFFF : Nat) < 65536 ∧ ((NewMMU bootAA).WriteByteAt 0xFFFF 7).memory 0xFFFF = 7 :=
  ⟨by decide, (mmu_access_in_bounds (NewMMU bootAA) 0xFFFF 7 (by decide)).2⟩

/-- C6: one decode step reads the byte at PC and advances PC by one
(mod 2^16); on `0xCB` it reads a second byte, advances again, and
selects slot `256 + second byte`; otherwise it selects the slot equal to
the first byte.  The memory is not modified. -/
theorem decode_fetch_slots (cpu : CPU) :
    (cpu.Mmu.ReadByteAt cpu.Regs.PC = 0xCB →
        (cpu.decode).1 = 256 + cpu.Mmu.ReadByteAt ((cpu.Regs.PC + 1) % 65536)
        ∧ (cpu.decode).2.Regs.PC = (cpu.Regs.PC + 2) % 65536)
    ∧ (cpu.Mmu.ReadByteAt cpu.Regs.PC ≠ 0xCB →
        (cpu.decode).1 = cpu.Mmu.ReadByteAt cpu.Regs.PC
        ∧ (cpu.decode).2.Regs.PC = (cpu.Regs.PC + 1) % 65536)
    ∧ (cpu.decode).2.Mmu = cpu.Mmu := by
  refine ⟨fun h => ?_, fun h => ?_, ?_⟩
  · simp only [CPU.decode, CPU.fetchByte]
    rw [if_pos h]
    exact ⟨rfl, by simp only []; omega⟩
  · simp only [CPU.decode, CPU.fetchByte]
    rw [if_neg h]
    exact ⟨rfl, rfl⟩
  · simp only [CPU.decode, CPU.fetchByte]
    by_cases h : cpu.Mmu.ReadByteAt cpu.Regs.PC = 0xCB
    · rw [if_pos h]
    · rw [if_neg h]

/-- C6 witness: a concrete state whose first byte is the `0xCB` prefix
selects slot `256 + second byte` and advances PC by two. -/
theorem decode_fetch_slots_w :
    ({ Regs := regs0, Mmu := { mmuOff with memory := updateFn (updateFn (fun _ => 0) 0 0xCB) 1 0x7C } } : CPU).Mmu.ReadByteAt 0 = 0xCB
    ∧ ({ Regs := regs0, Mmu := { mmuOff with memory := updateFn (updateFn (fun _ => 0) 0 0xCB) 1 0x7C } } : CPU).decode.1 = 256 + 0x7C :=
  ⟨by decide, by
    have h := (decode_fetch_slots
      { Regs := regs0, Mmu := { mmuOff with memory := updateFn (updateFn (fun _ => 0) 0 0xCB) 1 0x7C } }).1 (by decide)
    rw [h.1]
    decide⟩

/-- C7: writing a 16-bit value to a paired view stores the high byte in
the first register and the low byte in the second; reading back returns
the value exactly for BC, DE, HL, and the value masked with `0xFFF0` for
AF (whose write forces the low nibble of F to zero). -/
theorem pair_view_roundtrip (r : Registers) (v : Nat) (h : v < 65536) :
    ((r.setBC v).B = (v >>> 8) % 256 ∧ (r.setBC v).C = v % 256 ∧ (r.setBC v).getBC = v)
    ∧ ((r.setDE v).D = (v >>> 8) % 256 ∧ (r.setDE v).E = v % 256 ∧ (r.setDE v).getDE = v)
    ∧ ((r.setHL v).H = (v >>> 8) % 256 ∧ (r.setHL v).L = v % 256 ∧ (r.setHL v).getHL = v)
    ∧ ((r.setAF v).A = (v >>> 8) % 256 ∧ (r.setAF v).F = v &&& 0x00F0
        ∧ (r.setAF v).getAF = v &&& 0xFFF0) := by
  refine ⟨⟨rfl, rfl, ?_⟩, ⟨rfl, rfl, ?_⟩, ⟨rfl, rfl, ?_⟩, ⟨rfl, rfl, ?_⟩⟩
  · exact hl_recompose v h
  · exact hl_recompose v h
  · exact hl_recompose v h
  · exact af_recompose v h

/-- C7 witness: concrete value `0x1234` through BC and `0x12FF` through
AF (the latter reads back as `0x12F0`). -/
theorem pair_view_roundtrip_w :
    ((0x1234 : Nat) < 65536 ∧ (regs0.setBC 0x1234).getBC = 0x1234)
    ∧ ((0x12FF : Nat) < 65536 ∧ (regs0.setAF 0x12FF).getAF = 0x12FF &&& 0xFFF0) :=
  ⟨⟨by decide, (pair_view_roundtrip regs0 0x1234 (by decide)).1.2.2⟩,
    by decide, (pair_view_roundtrip regs0 0x12FF (by decide)).2.2.2.2.2⟩

lemma setFlag_A (r : Registers) (f : Nat) (b : Bool) : (r.setFlag f b).A = r.A := by
  unfold Registers.setFlag; split <;> rfl

lemma setFlag_B (r : Registers) (f : Nat) (b : Bool) : (r.setFlag f b).B = r.B := by
  unfold Registers.setFlag; split <;> rfl

lemma setFlag_C (r : Registers) (f : Nat) (b : Bool) : (r.setFlag f b).C = r.C := by
  unfold Registers.setFlag; split <;> rfl

lemma setFlag_D (r : Registers) (f : Nat) (b : Bool) : (r.setFlag f b).D = r.D := by
  unfold Registers.setFlag; split <;> rfl

lemma setFlag_E (r : Registers) (f : Nat) (b : Bool) : (r.setFlag f b).E = r.E := by
  unfold Registers.setFlag; split <;> rfl

lemma setFlag_H (r : Registers) (f : Nat) (b : Bool) : (r.setFlag f b).H = r.H := by
  unfold Registers.setFlag; split <;> rfl

lemma setFlag_L (r : Registers) (f : Nat) (b : Bool) : (r.setFlag f b).L = r.L := by
  unfold Registers.setFlag; split <;> rfl

lemma getFlag_Zero (r : Registers) : r.getFlag ZeroFlag = r.F.testBit 7 := by
  have h : ZeroFlag = 2 ^ 7 := by decide
  rw [h, getFlag_pow]

lemma getFlag_Sub (r : Registers) : r.getFlag SubtractFlag = r.F.testBit 6 := by
  have h : SubtractFlag = 2 ^ 6 := by decide
  rw [h, getFlag_pow]

lemma getFlag_Half (r : Registers) : r.getFlag HalfCarryFlag = r.F.testBit 5 := by
  have h : HalfCarryFlag = 2 ^ 5 := by decide
  rw [h, getFlag_pow]

lemma getFlag_Carry (r : Registers) : r.getFlag CarryFlag = r.F.testBit 4 := by
  have h : CarryFlag = 2 ^ 4 := by decide
  rw [h, getFlag_pow]

lemma incFlagChain (r : Registers) (z h : Bool) :
    ((((r.setFlag ZeroFlag z).setFlag SubtractFlag false).setFlag HalfCarryFlag h).F.testBit 7 = z)
    ∧ ((((r.setFlag ZeroFlag z).setFlag SubtractFlag false).setFlag HalfCarryFlag h).F.testBit 6 = false)
    ∧ ((((r.setFlag ZeroFlag z).setFlag SubtractFlag false).setFlag HalfCarryFlag h).F.testBit 5 = h)
    ∧ ((((r.setFlag ZeroFlag z).setFlag SubtractFlag false).setFlag HalfCarryFlag h).F.testBit 4 = r.F.testBit 4) := by
  refine ⟨?_, ?_, ?_, ?_⟩
  · rw [setFlag_F_testBit _ _ _ 7 (by norm_num), setFlag_F_testBit _ _ _ 7 (by norm_num),
      setFlag_F_testBit _ _ _ 7 (by norm_num)]
    simp [(by decide : Nat.testBit HalfCarryFlag 7 = false),
      (by decide : Nat.testBit SubtractFlag 7 = false),
      (by decide : Nat.testBit ZeroFlag 7 = true)]
  · rw [setFlag_F_testBit _ _ _ 6 (by norm_num), setFlag_F_testBit _ _ _ 6 (by norm_num)]
    simp [(by decide : Nat.testBit HalfCarryFlag 6 = false),
      (by decide : Nat.testBit SubtractFlag 6 = true)]
  · rw [setFlag_F_testBit _ _ _ 5 (by norm_num)]
    simp [(by decide : Nat.testBit HalfCarryFlag 5 = true)]
  · rw [setFlag_F_testBit _ _ _ 4 (by norm_num), setFlag_F_testBit _ _ _ 4 (by norm_num),
      setFlag_F_testBit _ _ _ 4 (by norm_num)]
    simp [(by decide : Nat.testBit HalfCarryFlag 4 = false),
      (by decide : Nat.testBit SubtractFlag 4 = false),
      (by decide : Nat.testBit ZeroFlag 4 = false)]

lemma halfCarry_iff (x : Nat) : (x &&& 15) + 1 > 15 ↔ x &&& 15 = 15 := by
  have hle : x &&& 15 ≤ 15 := Nat.and_le_right
  omega

/-- C5: for every 8-bit register, `OpIncR8` stores `v+1 mod 256`, sets
the zero flag iff the result is zero, clears the subtract flag, sets the
half-carry flag iff the original low nibble was `0xF`, and leaves the
carry flag exactly as it was; it returns the first declared cycle cost. -/
theorem incR8_flags (r8 : Reg8) (cpu : CPU) (opc mnem : String) (bytes : Nat)
    (cycles : List Int) (cb : Bool) (b2 : Nat) (i2 inc2 dec2 : Bool)
    (rest : List Operand) (imm : Bool) :
    ∃ r' : Registers,
      OpIncR8 cpu ⟨opc, mnem, bytes, cycles, cb,
          ⟨reg8Name r8, b2, i2, inc2, dec2⟩ :: rest, imm⟩
        = Except.ok ({ cpu with Regs := r' }, cycles.getD 0 0)
      ∧ reg8Get r8 r' = (reg8Get r8 cpu.Regs + 1) % 256
      ∧ (r'.getFlag ZeroFlag = true ↔ (reg8Get r8 cpu.Regs + 1) % 256 = 0)
      ∧ r'.getFlag SubtractFlag = false
      ∧ (r'.getFlag HalfCarryFlag = true ↔ reg8Get r8 cpu.Regs &&& 0x0F = 0x0F)
      ∧ r'.getFlag CarryFlag = cpu.Regs.getFlag CarryFlag := by
  cases r8 <;>
  · refine ⟨_, rfl, ?_, ?_, ?_, ?_, ?_⟩
    · simp [reg8Get, Registers.getA, Registers.getB, Registers.getC, Registers.getD,
        Registers.getE, Registers.getH, Registers.getL, setFlag_A, setFlag_B, setFlag_C,
        setFlag_D, setFlag_E, setFlag_H, setFlag_L, Registers.setA, Registers.setB,
        Registers.setC, Registers.setD, Registers.setE, Registers.setH, Registers.setL]
    · simp only [reg8Get, Registers.getA, Registers.getB, Registers.getC, Registers.getD,
        Registers.getE, Registers.getH, Registers.getL]
      rw [getFlag_Zero, (incFlagChain _ _ _).1]
      simp
    · rw [getFlag_Sub, (incFlagChain _ _ _).2.1]
    · simp only [reg8Get, Registers.getA, Registers.getB, Registers.getC, Registers.getD,
        Registers.getE, Registers.getH, Registers.getL]
      rw [getFlag_Half, (incFlagChain _ _ _).2.2.1, decide_eq_true_iff]
      exact halfCarry_iff _
    · rw [getFlag_Carry, getFlag_Carry, (incFlagChain _ _ _).2.2.2]
      rfl

lemma WriteByteAt_bootEnabled_false (m : MMU) (a v : Nat) (h : m.bootEnabled = false) :
    (m.WriteByteAt a v).bootEnabled = false := by
  rw [WriteByteAt_bootEnabled]
  split
  · rfl
  · exact h

lemma updateFn_same (f : Nat → Nat) (a v : Nat) : updateFn f a v a = v := by
  unfold updateFn
  rw [if_pos rfl]

lemma updateFn_other (f : Nat → Nat) (a v b : Nat) (h : ¬ b = a) : updateFn f a v b = f b := by
  unfold updateFn
  rw [if_neg h]

lemma pushWord_Mmu (cpu : CPU) (v : Nat) :
    (cpu.pushWord v).Mmu
      = (cpu.Mmu.WriteByteAt ((cpu.Regs.SP + 65535) % 65536) ((v >>> 8) % 256)).WriteByteAt
          (((cpu.Regs.SP + 65535) % 65536 + 65535) % 65536) (v % 256) := by
  rw [CPU.pushWord, Registers.getSP]

lemma pushWord_SP (cpu : CPU) (v : Nat) :
    (cpu.pushWord v).Regs.SP = ((cpu.Regs.SP + 65535) % 65536 + 65535) % 65536 := by
  rw [CPU.pushWord, Registers.getSP, Registers.setSP]

lemma popWord_fst (cpu : CPU) :
    (cpu.popWord).1
      = (cpu.Mmu.ReadByteAt ((cpu.Regs.SP + 1) % 65536) <<< 8) ||| cpu.Mmu.ReadByteAt cpu.Regs.SP := by
  rw [CPU.popWord, Registers.getSP]

lemma popWord_SP (cpu : CPU) :
    (cpu.popWord).2.Regs.SP = ((cpu.Regs.SP + 1) % 65536 + 1) % 65536 := by
  rw [CPU.popWord, Registers.getSP, Registers.setSP]

lemma pushWord_then_popWord (cpu : CPU) (x : Nat) (hx : x < 65536)
    (hsp : cpu.Regs.SP < 65536)
    (hov : cpu.Mmu.bootEnabled = false
      ∨ (256 ≤ (cpu.Regs.SP + 65535) % 65536 ∧ 256 ≤ (cpu.Regs.SP + 65534) % 65536)) :
    ((cpu.pushWord x).Mmu.memory ((cpu.Regs.SP + 65535) % 65536) = (x >>> 8) % 256)
    ∧ ((cpu.pushWord x).Mmu.memory ((cpu.Regs.SP + 65534) % 65536) = x % 256)
    ∧ ((cpu.pushWord x).Regs.SP = (cpu.Regs.SP + 65534) % 65536)
    ∧ (((cpu.pushWord x).popWord).1 = x)
    ∧ (((cpu.pushWord x).popWord).2.Regs.SP = cpu.Regs.SP) := by
  have heq2 : ((cpu.Regs.SP + 65535) % 65536 + 65535) % 65536
      = (cpu.Regs.SP + 65534) % 65536 := by omega
  have hne : ¬ (cpu.Regs.SP + 65535) % 65536 = (cpu.Regs.SP + 65534) % 65536 := by omega
  have hb2 : cpu.Mmu.bootEnabled = false →
      ((cpu.Mmu.WriteByteAt ((cpu.Regs.SP + 65535) % 65536) ((x >>> 8) % 256)).WriteByteAt
        ((cpu.Regs.SP + 65534) % 65536) (x % 256)).bootEnabled = false :=
    fun h => WriteByteAt_bootEnabled_false _ _ _ (WriteByteAt_bootEnabled_false _ _ _ h)
  have hm : ((cpu.Mmu.WriteByteAt ((cpu.Regs.SP + 65535) % 65536) ((x >>> 8) % 256)).WriteByteAt
      ((cpu.Regs.SP + 65534) % 65536) (x % 256)).memory
      = updateFn (updateFn cpu.Mmu.memory ((cpu.Regs.SP + 65535) % 65536) ((x >>> 8) % 256))
          ((cpu.Regs.SP + 65534) % 65536) (x % 256) := by
    rw [WriteByteAt_memory _ _ _ (by omega), WriteByteAt_memory _ _ _ (by omega)]
  have hrd1 : ((cpu.Mmu.WriteByteAt ((cpu.Regs.SP + 65535) % 65536) ((x >>> 8) % 256)).WriteByteAt
      ((cpu.Regs.SP + 65534) % 65536) (x % 256)).ReadByteAt ((cpu.Regs.SP + 65534) % 65536)
      = x % 256 := by
    rcases hov with h | h
    · rw [ReadByteAt_memory _ _ (by omega) (Or.inl (hb2 h)), hm, updateFn_same]
    · rw [ReadByteAt_memory _ _ (by omega) (Or.inr h.2), hm, updateFn_same]
  have hrd2 : ((cpu.Mmu.WriteByteAt ((cpu.Regs.SP + 65535) % 65536) ((x >>> 8) % 256)).WriteByteAt
      ((cpu.Regs.SP + 65534) % 65536) (x % 256)).ReadByteAt ((cpu.Regs.SP + 65535) % 65536)
      = (x >>> 8) % 256 := by
    rcases hov with h | h
    · rw [ReadByteAt_memory _ _ (by omega) (Or.inl (hb2 h)), hm,
        updateFn_other _ _ _ _ hne, updateFn_same]
    · rw [ReadByteAt_memory _ _ (by omega) (Or.inr h.1), hm,
        updateFn_other _ _ _ _ hne, updateFn_same]
  refine ⟨?_, ?_, ?_, ?_, ?_⟩
  · rw [pushWord_Mmu, heq2, hm, updateFn_other _ _ _ _ hne, updateFn_same]
  · rw [pushWord_Mmu, heq2, hm, updateFn_same]
  · rw [pushWord_SP, heq2]
  · have e1 : ((cpu.Regs.SP + 65534) % 65536 + 1) % 65536
        = (cpu.Regs.SP + 65535) % 65536 := by omega
    rw [popWord_fst, pushWord_SP, pushWord_Mmu, heq2, e1, hrd2, hrd1]
    exact hl_recompose x hx
  · rw [popWord_SP, pushWord_SP, heq2]
    omega

/-- C3 (amended): push writes the high byte then the low byte to
successively decremented stack addresses and pop reads them back in
reverse, restoring the pair exactly (BC, DE, HL) or masked with `0xFFF0`
(AF) — provided the two stack bytes are served from main space on the
way back, i.e. the overlay is inactive or both stack addresses lie at or
above `0x0100`. -/
theorem push_pop_roundtrip (p : Pair16) (cpu : CPU) (opc1 mnem1 opc2 mnem2 : String)
    (bytes1 bytes2 b2 : Nat) (cycles1 cycles2 : List Int) (cb1 cb2 i2 inc2 dec2 : Bool)
    (rest : List Operand) (imm1 imm2 : Bool)
    (hx : pair16Get p cpu.Regs < 65536) (hsp : cpu.Regs.SP < 65536)
    (hov : cpu.Mmu.bootEnabled = false
      ∨ (256 ≤ (cpu.Regs.SP + 65535) % 65536 ∧ 256 ≤ (cpu.Regs.SP + 65534) % 65536)) :
    ∃ cpu1 cpu2 : CPU,
      OpPushR16 cpu ⟨opc1, mnem1, bytes1, cycles1, cb1,
          ⟨pair16Name p, b2, i2, inc2, dec2⟩ :: rest, imm1⟩
        = Except.ok (cpu1, cycles1.getD 0 0)
      ∧ cpu1.Mmu.memory ((cpu.Regs.SP + 65535) % 65536) = (pair16Get p cpu.Regs >>> 8) % 256
      ∧ cpu1.Mmu.memory ((cpu.Regs.SP + 65534) % 65536) = pair16Get p cpu.Regs % 256
      ∧ cpu1.Regs.SP = (cpu.Regs.SP + 65534) % 65536
      ∧ OpPopR16 cpu1 ⟨opc2, mnem2, bytes2, cycles2, cb2,
          ⟨pair16Name p, b2, i2, inc2, dec2⟩ :: rest, imm2⟩
        = Except.ok (cpu2, cycles2.getD 0 0)
      ∧ cpu2.Regs.SP = cpu.Regs.SP
      ∧ pair16Get p cpu2.Regs
          = (if p = Pair16.AF then pair16Get p cpu.Regs &&& 0xFFF0 else pair16Get p cpu.Regs) := by
  cases p
  case BC =>
    have L := pushWord_then_popWord cpu cpu.Regs.getBC hx hsp hov
    refine ⟨cpu.pushWord cpu.Regs.getBC, _, rfl, L.1, L.2.1, L.2.2.1, rfl, L.2.2.2.2, ?_⟩
    rw [if_neg (by decide)]
    simp only [pair16Get, Registers.getBC, Registers.setBC]
    have hv : (cpu.pushWord (cpu.Regs.B <<< 8 ||| cpu.Regs.C)).popWord.1
        = cpu.Regs.B <<< 8 ||| cpu.Regs.C := L.2.2.2.1
    rw [hv]
    exact hl_recompose _ hx
  case DE =>
    have L := pushWord_then_popWord cpu cpu.Regs.getDE hx hsp hov
    refine ⟨cpu.pushWord cpu.Regs.getDE, _, rfl, L.1, L.2.1, L.2.2.1, rfl, L.2.2.2.2, ?_⟩
    rw [if_neg (by decide)]
    simp only [pair16Get, Registers.getDE, Registers.setDE]
    have hv : (cpu.pushWord (cpu.Regs.D <<< 8 ||| cpu.Regs.E)).popWord.1
        = cpu.Regs.D <<< 8 ||| cpu.Regs.E := L.2.2.2.1
    rw [hv]
    exact hl_recompose _ hx
  case HL =>
    have L := pushWord_then_popWord cpu cpu.Regs.getHL hx hsp hov
    refine ⟨cpu.pushWord cpu.Regs.getHL, _, rfl, L.1, L.2.1, L.2.2.1, rfl, L.2.2.2.2, ?_⟩
    rw [if_neg (by decide)]
    simp only [pair16Get, Registers.getHL, Registers.setHL]
    have hv : (cpu.pushWord (cpu.Regs.H <<< 8 ||| cpu.Regs.L)).popWord.1
        = cpu.Regs.H <<< 8 ||| cpu.Regs.L := L.2.2.2.1
    rw [hv]
    exact hl_recompose _ hx
  case AF =>
    have L := pushWord_then_popWord cpu cpu.Regs.getAF hx hsp hov
    refine ⟨cpu.pushWord cpu.Regs.getAF, _, rfl, L.1, L.2.1, L.2.2.1, rfl, L.2.2.2.2, ?_⟩
    rw [if_pos rfl]
    simp only [pair16Get, Registers.getAF, Registers.setAF]
    have hv : (cpu.pushWord (cpu.Regs.A <<< 8 ||| cpu.Regs.F)).popWord.1
        = cpu.Regs.A <<< 8 ||| cpu.Regs.F := L.2.2.2.1
    rw [hv]
    exact af_recompose _ hx

/-- C3 counterexample: with the boot overlay active (as at construction)
and `SP = 0x0100`, the two stack bytes land in the overlay-shadowed
range; `PUSH BC` of `0x1234` followed by `POP BC` restores `0xAAAA` (two
overlay bytes), not `0x1234`, so the round trip does not hold for every
stack-pointer value. -/
theorem push_pop_roundtrip_cex :
    cpuPushCex.Regs.getBC = 0x1234
    ∧ cpuPushCex.Mmu.bootEnabled = true
    ∧ (((OpPushR16 cpuPushCex instrPushBC).toOption.bind
        (fun p1 => (OpPopR16 p1.1 instrPopBC).toOption)).map
          (fun q => q.1.Regs.getBC)) = some 0xAAAA
    ∧ (0xAAAA : Nat) ≠ 0x1234 := by
  refine ⟨by decide, rfl, by decide, by decide⟩

/-- C3 witness: the amended round trip at `BC = 0x1234`, `SP = 0xFFFE`
(both stack addresses above the overlay range). -/
theorem push_pop_roundtrip_w :
    (pair16Get Pair16.BC cpuPushFix.Regs < 65536 ∧ cpuPushFix.Regs.SP < 65536
      ∧ 256 ≤ (cpuPushFix.Regs.SP + 65535) % 65536
      ∧ 256 ≤ (cpuPushFix.Regs.SP + 65534) % 65536)
    ∧ (∃ cpu1 cpu2 : CPU,
        OpPushR16 cpuPushFix instrPushBC = Except.ok (cpu1, 16)
        ∧ cpu1.Mmu.memory ((cpuPushFix.Regs.SP + 65535) % 65536)
            = (pair16Get Pair16.BC cpuPushFix.Regs >>> 8) % 256
        ∧ cpu1.Mmu.memory ((cpuPushFix.Regs.SP + 65534) % 65536)
            = pair16Get Pair16.BC cpuPushFix.Regs % 256
        ∧ cpu1.Regs.SP = (cpuPushFix.Regs.SP + 65534) % 65536
        ∧ OpPopR16 cpu1 instrPopBC = Except.ok (cpu2, 12)
        ∧ cpu2.Regs.SP = cpuPushFix.Regs.SP
        ∧ pair16Get Pair16.BC cpu2.Regs
            = (if Pair16.BC = Pair16.AF
                then pair16Get Pair16.BC cpuPushFix.Regs &&& 0xFFF0
                else pair16Get Pair16.BC cpuPushFix.Regs)) :=
  ⟨⟨by decide, by decide, by decide, by decide⟩,
    push_pop_roundtrip Pair16.BC cpuPushFix "0xC5" "PUSH" "0xC1" "POP" 1 1 0 [16] [12]
      false false true false false [] true true (by decide) (by decide)
      (Or.inr ⟨by decide, by decide⟩)⟩

/-- C4 counterexample: decoding the extended prefix `0xCB` followed by an
unimplemented opcode advances PC from `0x0100` to `0x0102`; the
unimplemented routine then reports `0x0101` — the post-advance pointer
minus one — not the fetch address `0x0100` (post-advance minus the
2-byte length).  Moreover two different extended opcodes (`0xFF` and
`0xFE`) yield the *same* diagnostic, so it does not identify the opcode
value. -/
theorem unimpl_report_cex :
    (cpuCB255.decode).1 = 256 + 0xFF
    ∧ (cpuCB255.decode).2.Regs.PC = 0x0102
    ∧ OpUnimplemented (cpuCB255.decode).2 instrUnimpl
        = Except.error "Unimplemented instruction \"UNKNOWN\" called at PC: 0x0101"
    ∧ (cpuCB254.decode).1 = 256 + 0xFE
    ∧ OpUnimplemented (cpuCB254.decode).2 instrUnimpl
        = OpUnimplemented (cpuCB255.decode).2 instrUnimpl
    ∧ (0x0101 : Nat) ≠ 0x0102 - 2 :=
  ⟨by decide, by decide, rfl, by decide, rfl, by decide⟩

/-- C4 (amended): dispatch of an unimplemented slot fails fatally with a
diagnostic naming the instruction's rendering (`UNKNOWN` for
unimplemented slots — not the numeric opcode value) and the pointer
value `PC - 1`; after decode this equals the fetch address for
unprefixed slots but the fetch address plus one for extended-prefixed
slots. -/
theorem unimpl_report (cpu : CPU) (instr : Instruction) (h : cpu.Regs.PC < 65536) :
    (OpUnimplemented (cpu.decode).2 instr
      = Except.error (unimplMsg instr (((cpu.decode).2.Regs.PC + 65535) % 65536)))
    ∧ (cpu.Mmu.ReadByteAt cpu.Regs.PC ≠ 0xCB →
        ((cpu.decode).2.Regs.PC + 65535) % 65536 = cpu.Regs.PC)
    ∧ (cpu.Mmu.ReadByteAt cpu.Regs.PC = 0xCB →
        ((cpu.decode).2.Regs.PC + 65535) % 65536 = (cpu.Regs.PC + 1) % 65536) := by
  refine ⟨rfl, fun hn => ?_, fun hy => ?_⟩
  · simp only [CPU.decode, CPU.fetchByte]
    rw [if_neg hn]
    simp only []
    omega
  · simp only [CPU.decode, CPU.fetchByte]
    rw [if_pos hy]
    simp only []
    omega

/-- C4 witness: at the concrete prefixed state, the reported address is
the fetch address plus one. -/
theorem unimpl_report_w :
    (cpuCB255.Regs.PC < 65536 ∧ cpuCB255.Mmu.ReadByteAt cpuCB255.Regs.PC = 0xCB)
    ∧ ((cpuCB255.decode).2.Regs.PC + 65535) % 65536 = (cpuCB255.Regs.PC + 1) % 65536 :=
  ⟨⟨by decide, by decide⟩, (unimpl_report cpuCB255 instrUnimpl (by decide)).2.2 (by decide)⟩

/-- C1 (evaluation at the failing input): the bound routine for
`JR Z, e8` is dispatched with the zero flag SET — the instruction's own
zero-set condition holds — yet the routine, which tests only the
zero-clear condition, leaves the transfer unperformed (PC only advances
past the offset byte, `0x0101 → 0x0102`, instead of jumping to
`0x0102 + 5`) and returns the second declared cycle cost 8 instead of
the first (12).  The sibling `OpJrNZE8` body behaves identically. -/
theorem jr_cond_ignores_condition :
    cpuJrZ.Regs.getFlag ZeroFlag = true
    ∧ instrJrZ.Operands.map Operand.Name = ["Z", "e8"]
    ∧ instrJrZ.Cycles = [12, 8]
    ∧ (OpJrCondImm8 cpuJrZ instrJrZ).2 = 8
    ∧ (OpJrCondImm8 cpuJrZ instrJrZ).1.Regs.PC = 0x0102
    ∧ (OpJrNZE8 cpuJrZ instrJrZ).2 = 8
    ∧ (OpJrNZE8 cpuJrZ instrJrZ).1.Regs.PC = 0x0102
    ∧ (8 : Int) ≠ 12
    ∧ (0x0102 : Nat) ≠ 0x0102 + 5 :=
  ⟨by decide, by decide, by decide, by decide, by decide, by decide, by decide,
    by decide, by decide⟩
